/-
Verification of the natural-language specification of the simple-job-queue
library against a shallow embedding of its two storage drivers
(Sqlite3Driver, RedisDriver), its facade (VerySimpleQueue) and the queue
client orchestration.

Modelling conventions:
* JavaScript machine integers never overflow in the modelled code paths
  (timestamps, counters), so timestamps are `Int`.
* Asynchronous driver methods are modelled as pure functions from an explicit
  store state to an `Except` result: a rejected promise is `Except.error`,
  a resolved promise is `Except.ok`.
* The sqlite table is a list of rows in insertion order; `SELECT ... LIMIT 1`
  picks the first matching row (selection order is unspecified by the spec,
  list order is one legal order).
* The redis key space is an association list of string keys in insertion
  order; `KEYS pattern` enumerates keys in that order and the driver takes
  the first match (`keysResult[0] || null`).  Every pattern the driver builds
  has the single-star shape `literalPrefix*literalSuffix`, embedded by
  `globMatch1`.
* `JSON.stringify`/`JSON.parse` of a whole job on the redis side is a
  round-trip on the job record, so redis values are stored as job records;
  the payload (de)serialization itself is embedded separately (`stringify`,
  `jsonParse`) and proved to round-trip.
-/
import Mathlib

/-- Errors a driver promise can reject with. -/
inductive JsError where
  /-- Property access on an undefined value (for example, dereferencing the
  not-yet-established redis connection). -/
  | typeError
  /-- Sqlite UNIQUE / PRIMARY KEY constraint violation on INSERT. -/
  | constraintViolation
  /-- Any other sqlite statement failure. -/
  | sqliteError
deriving Repr, DecidableEq

/-- A row of the sqlite `jobs` table: uuid PRIMARY KEY, queue, serialized
payload, created_at, nullable reserved_at, nullable failed_at. -/
structure SqliteRow where
  uuid : String
  queue : String
  payload : String
  created_at : Int
  reserved_at : Option Int
  failed_at : Option Int
deriving Repr, DecidableEq

/-- Which primitive statements inside the sqlite reservation transaction fail
(a rejected promise from the promisified `run`/`get`).  `noFaults` is the
fault-free execution used by the ordinary driver entry points. -/
structure TxFaults where
  beginFails : Bool
  selectFails : Bool
  updateFails : Bool
  commitFails : Bool
  rollbackFails : Bool
deriving Repr, DecidableEq

/-- The fault-free transaction environment. -/
def noFaults : TxFaults := ⟨false, false, false, false, false⟩

/-- One primitive statement: rejects exactly when its fault flag is set. -/
def txRun (fails : Bool) : Except Unit Unit :=
  if fails then Except.error () else Except.ok ()

namespace Sqlite3Driver

/-- The `UPDATE jobs SET reserved_at = ts WHERE uuid = u` statement. -/
def updateReserved (table : List SqliteRow) (u : String) (ts : Int) :
    List SqliteRow :=
  table.map (fun r => if r.uuid = u then { r with reserved_at := some ts } else r)

/-- Body of `#reserveJob` between BEGIN and COMMIT, with fault injection.
Transcribed from Sqlite3Driver.#reserveJob: BEGIN EXCLUSIVE TRANSACTION;
SELECT one row for the variant predicate; if none, COMMIT and return null;
otherwise UPDATE reserved_at (failed_at is not touched) and COMMIT, returning
the row as selected (the source returns the parsed pre-update row). -/
def reserveJobTx (f : TxFaults) (pred : SqliteRow → Bool) (ts : Int)
    (table : List SqliteRow) :
    Except Unit (Option SqliteRow × List SqliteRow) := do
  _ ← txRun f.beginFails
  _ ← txRun f.selectFails
  match table.find? pred with
  | none => do
    _ ← txRun f.commitFails
    return (none, table)
  | some row => do
    _ ← txRun f.updateFails
    let table2 := updateReserved table row.uuid ts
    _ ← txRun f.commitFails
    return (some row, table2)

/-- `Sqlite3Driver.#reserveJob`: the transaction body wrapped in the source's
try/catch.  Any rejection inside the body runs ROLLBACK (restoring the
table) and resolves with null; only a failing ROLLBACK itself surfaces. -/
def reserveJob (f : TxFaults) (pred : SqliteRow → Bool) (ts : Int)
    (table : List SqliteRow) :
    Except JsError (Option SqliteRow × List SqliteRow) :=
  match reserveJobTx f pred ts table with
  | Except.ok r => Except.ok r
  | Except.error _ =>
    if f.rollbackFails then Except.error JsError.sqliteError
    else Except.ok (none, table)

/-- WHERE predicate of `getJob`: queue = ? AND failed_at IS NULL AND
reserved_at IS NULL. -/
def getJobPred (queue : String) (r : SqliteRow) : Bool :=
  r.queue = queue && r.failed_at.isNone && r.reserved_at.isNone

/-- WHERE predicate of `getJobByUuid`: uuid = ? AND reserved_at IS NULL
(the source does not test failed_at). -/
def getJobByUuidPred (uuid : String) (r : SqliteRow) : Bool :=
  r.uuid = uuid && r.reserved_at.isNone

/-- WHERE predicate of `getFailedJob`: queue = ? AND failed_at IS NOT NULL
AND reserved_at IS NULL. -/
def getFailedJobPred (queue : String) (r : SqliteRow) : Bool :=
  r.queue = queue && r.failed_at.isSome && r.reserved_at.isNone

/-- `Sqlite3Driver.getJob`. -/
def getJob (queue : String) (ts : Int) (table : List SqliteRow) :
    Except JsError (Option SqliteRow × List SqliteRow) :=
  reserveJob noFaults (getJobPred queue) ts table

/-- `Sqlite3Driver.getJobByUuid`. -/
def getJobByUuid (uuid : String) (ts : Int) (table : List SqliteRow) :
    Except JsError (Option SqliteRow × List SqliteRow) :=
  reserveJob noFaults (getJobByUuidPred uuid) ts table

/-- `Sqlite3Driver.getFailedJob`. -/
def getFailedJob (queue : String) (ts : Int) (table : List SqliteRow) :
    Except JsError (Option SqliteRow × List SqliteRow) :=
  reserveJob noFaults (getFailedJobPred queue) ts table

/-- `Sqlite3Driver.storeJob`: INSERT INTO jobs(uuid, queue, payload,
created_at); reserved_at and failed_at default to NULL; the uuid PRIMARY KEY
makes a duplicate insert reject. -/
def storeJob (table : List SqliteRow) (uuid queue payload : String)
    (created : Int) : Except JsError (List SqliteRow) :=
  if table.any (fun r => r.uuid = uuid) then Except.error JsError.constraintViolation
  else Except.ok (table ++
    [{ uuid := uuid, queue := queue, payload := payload, created_at := created,
       reserved_at := none, failed_at := none }])

/-- `Sqlite3Driver.deleteJob`: DELETE FROM jobs WHERE reserved_at IS NOT NULL
AND uuid = ?. -/
def deleteJob (uuid : String) (table : List SqliteRow) : List SqliteRow :=
  table.filter (fun r => !(r.reserved_at.isSome && r.uuid = uuid))

/-- `Sqlite3Driver.markJobAsFailed`: UPDATE jobs SET failed_at = ?,
reserved_at = NULL WHERE uuid = ?. -/
def markJobAsFailed (uuid : String) (ts : Int) (table : List SqliteRow) :
    List SqliteRow :=
  table.map (fun r =>
    if r.uuid = uuid then { r with failed_at := some ts, reserved_at := none } else r)

end Sqlite3Driver

/-- A JavaScript job object on the redis side.  `none` plays the role of the
JavaScript `null`/`undefined` of each field; the spread `{ ...null }` in
`#reserveJob` produces the all-`none` record `emptyRJob`. -/
structure RJob where
  uuid : Option String
  queue : Option String
  payload : Option String
  created_at : Option Int
  reserved_at : Option Int
  failed_at : Option Int
deriving Repr, DecidableEq

/-- The object `{ ...null }`: every field undefined. -/
def emptyRJob : RJob := ⟨none, none, none, none, none, none⟩

/-- JavaScript template-literal interpolation of a possibly-undefined string:
an undefined field renders as the string "undefined". -/
def jsStr (o : Option String) : String := o.getD "undefined"

/-- JavaScript truthiness of a nullable integer field: `null`/`undefined` and
`0` are falsy. -/
def jsTruthy (o : Option Int) : Bool :=
  match o with
  | none => false
  | some t => t ≠ 0

/-- Every redis KEYS pattern the driver builds has the single-star shape
`literalPrefix*literalSuffix`; a key matches when it starts with the prefix,
ends with the suffix, and is long enough for both to fit without overlap. -/
def globMatch1 (pre suf key : String) : Bool :=
  pre.data.isPrefixOf key.data && suf.data.isSuffixOf key.data &&
    pre.length + suf.length ≤ key.length

/-- The redis driver's state: whether `#setConnection` has run, plus the key
space (keys are full key strings; values are the stored job records, since
`JSON.stringify`/`JSON.parse` of a whole job round-trips). -/
structure RedisState where
  connection : Bool
  store : List (String × RJob)
deriving Repr, DecidableEq

/-- `SET key value`: overwrite in place or append a fresh key. -/
def redisSet (store : List (String × RJob)) (key : String) (v : RJob) :
    List (String × RJob) :=
  if store.any (fun kv => kv.fst = key) then
    store.map (fun kv => if kv.fst = key then (key, v) else kv)
  else store ++ [(key, v)]

/-- `SETNX key value`: write only when the key is absent, never an error. -/
def redisSetnx (store : List (String × RJob)) (key : String) (v : RJob) :
    List (String × RJob) :=
  if store.any (fun kv => kv.fst = key) then store else store ++ [(key, v)]

/-- `DEL key` on the result of `#getJobKeyByPattern`.  When the pattern found
no key the JavaScript argument is `null`; under the client's legacyMode it is
sent as the key "null", and DEL of an absent key deletes nothing. -/
def redisDel (store : List (String × RJob)) (okey : Option String) :
    List (String × RJob) :=
  match okey with
  | none => store
  | some k => store.filter (fun kv => kv.fst ≠ k)

namespace RedisDriver

/-- `#setConnection`: establish the connection once. -/
def setConnection (s : RedisState) : RedisState :=
  if s.connection then s else { s with connection := true }

/-- `#getJobKeyByPattern`: `this.#connection.keys(pattern)` (a TypeError when
the connection was never established), then `keysResult[0] || null`. -/
def getJobKeyByPattern (s : RedisState) (pre suf : String) :
    Except JsError (Option String) :=
  if s.connection then
    Except.ok ((s.store.find? (fun kv => globMatch1 pre suf kv.fst)).map
      (fun kv => kv.fst))
  else Except.error JsError.typeError

/-- `#getJobByKey`: `GET key` then JSON.parse, null when absent. -/
def getJobByKey (s : RedisState) (key : String) : Except JsError (Option RJob) :=
  if s.connection then
    Except.ok ((s.store.find? (fun kv => kv.fst = key)).map (fun kv => kv.snd))
  else Except.error JsError.typeError

/-- `#getJobByPattern`: first key for the pattern, then fetch it. -/
def getJobByPattern (s : RedisState) (pre suf : String) :
    Except JsError (Option RJob) := do
  let k ← getJobKeyByPattern s pre suf
  match k with
  | none => return none
  | some key => getJobByKey s key

/-- `#markJob`: under the distributed lock (modelled as acquired, since lock
bodies execute serially), look up the key matching
`jobs_<currentState>:*<uuid>`, DEL it, then SET
`jobs_<mark>:<queue>/<uuid>` to the job.  The source performs no existence
check on the looked-up key before writing the destination. -/
def markJob (s : RedisState) (job : RJob) (mark currentState : String) :
    Except JsError RedisState := do
  if s.connection then
    let keyToDelete ← getJobKeyByPattern s ("jobs_" ++ currentState ++ ":")
      (jsStr job.uuid)
    let store1 := redisDel s.store keyToDelete
    let key := "jobs_" ++ mark ++ ":" ++ jsStr job.queue ++ "/" ++ jsStr job.uuid
    return { s with store := redisSet store1 key job }
  else Except.error JsError.typeError

/-- `#reserveJob`: copy the job (a spread of `null` gives the empty object),
derive the current state from the truthiness of `failed_at`, stamp
`reserved_at` and clear `failed_at`, then `#markJob` to the reserved prefix;
a rejection from `#markJob` is caught and resolves with null. -/
def reserveJob (s : RedisState) (ts : Int) (job : Option RJob) :
    Except JsError (Option RJob × RedisState) :=
  let j := job.getD emptyRJob
  let currentState := if jsTruthy j.failed_at then "failed" else "available"
  let jobCopy := { j with reserved_at := some ts, failed_at := none }
  match markJob s jobCopy "reserved" currentState with
  | Except.ok s2 => Except.ok (some jobCopy, s2)
  | Except.error _ => Except.ok (none, s)

/-- `#failJob`: stamp `failed_at`, clear `reserved_at`, move from the
reserved prefix to the failed prefix (no catch). -/
def failJob (s : RedisState) (ts : Int) (job : Option RJob) :
    Except JsError RedisState :=
  let j := job.getD emptyRJob
  let jobCopy := { j with failed_at := some ts, reserved_at := none }
  markJob s jobCopy "failed" "reserved"

/-- `RedisDriver.storeJob`: ensure the connection, then
`SETNX jobs_available:<queue>/<uuid>` (silently a no-op on an existing key). -/
def storeJob (s0 : RedisState) (job : RJob) : Except JsError RedisState :=
  let s := setConnection s0
  if s.connection then
    Except.ok { s with store := redisSetnx s.store ("jobs_available:" ++ jsStr job.queue ++ "/" ++ jsStr job.uuid) job }
  else Except.error JsError.typeError

/-- `RedisDriver.getJob`: ensure the connection, read the first
`jobs_available:<queue>/*` job, return null when none, else reserve it. -/
def getJob (s0 : RedisState) (queue : String) (ts : Int) :
    Except JsError (Option RJob × RedisState) := do
  let s := setConnection s0
  let job ← getJobByPattern s ("jobs_available:" ++ queue ++ "/") ""
  match job with
  | none => return (none, s)
  | some j => reserveJob s ts (some j)

/-- `RedisDriver.getJobByUuid`: ensure the connection, read the first
`jobs_available:*/<uuid>` job and pass it to `#reserveJob` with no null
check (unlike `getJob`). -/
def getJobByUuid (s0 : RedisState) (uuid : String) (ts : Int) :
    Except JsError (Option RJob × RedisState) := do
  let s := setConnection s0
  let job ← getJobByPattern s "jobs_available:" ("/" ++ uuid)
  reserveJob s ts job

/-- `RedisDriver.getFailedJob`: no `#setConnection` call; read the first
`jobs_failed:<queue>/*` job and pass it, null check missing, to
`#reserveJob`. -/
def getFailedJob (s : RedisState) (queue : String) (ts : Int) :
    Except JsError (Option RJob × RedisState) := do
  let job ← getJobByPattern s ("jobs_failed:" ++ queue ++ "/") ""
  reserveJob s ts job

/-- `RedisDriver.deleteJob`: no `#setConnection` call; find the first key
matching `jobs_*<uuid>` — any state prefix — and DEL it. -/
def deleteJob (s : RedisState) (uuid : String) : Except JsError RedisState := do
  let jobKey ← getJobKeyByPattern s "jobs_" uuid
  if s.connection then
    return { s with store := redisDel s.store jobKey }
  else Except.error JsError.typeError

/-- `RedisDriver.markJobAsFailed`: no `#setConnection` call; read the first
`jobs_reserved:*<uuid>` job and `#failJob` it. -/
def markJobAsFailed (s : RedisState) (uuid : String) (ts : Int) :
    Except JsError RedisState := do
  let job ← getJobByPattern s "jobs_reserved:" uuid
  failJob s ts job

/-- One legal outcome of two callers running `getJob` concurrently on the
same queue: both callers' pattern reads run outside the distributed lock, so
they may both complete before either caller's lock-protected `#markJob`; the
two `#markJob` bodies then run serially under the lock.  Returns what each
caller's `getJob` resolves with, and the final store. -/
def getJobRace (s0 : RedisState) (queue : String) (tsA tsB : Int) :
    Except JsError (Option RJob × Option RJob × RedisState) := do
  let s := setConnection s0
  let jobA ← getJobByPattern s ("jobs_available:" ++ queue ++ "/") ""
  let jobB ← getJobByPattern s ("jobs_available:" ++ queue ++ "/") ""
  let resA ← match jobA with
    | none => pure ((none : Option RJob), s)
    | some j => reserveJob s tsA (some j)
  let resB ← match jobB with
    | none => pure ((none : Option RJob), resA.snd)
    | some j => reserveJob resA.snd tsB (some j)
  return (resA.fst, resB.fst, resB.snd)

end RedisDriver

/-- The spec's `Available` state of a sqlite row: both timestamps NULL. -/
def rowAvailable (r : SqliteRow) : Prop :=
  r.reserved_at = none ∧ r.failed_at = none

/-- The spec's `Reserved` state of a sqlite row: reserved_at non-NULL. -/
def rowReserved (r : SqliteRow) : Prop := r.reserved_at ≠ none

/-- The spec's `Failed` state of a sqlite row: failed_at non-NULL and
reserved_at NULL. -/
def rowFailed (r : SqliteRow) : Prop :=
  r.failed_at ≠ none ∧ r.reserved_at = none

namespace QueueClient

/-- A reserved job as the queue client sees it: its identity and its
deserialized payload. -/
structure CJob where
  uuid : String
  payload : String
deriving Repr, DecidableEq

/-- The driver contract as the queue client consumes it, over an abstract
backend state `σ`: fetch-and-reserve one job, delete by uuid, mark failed by
uuid. -/
structure DriverAPI (σ : Type) where
  fetchAndReserve : String → σ → Option CJob × σ
  deleteJob : String → σ → σ
  markJobAsFailed : String → σ → σ

/-- The two distinguishable successful outcomes of a handle call. -/
inductive HandleOutcome (ρ : Type) where
  | nothingToDo
  | handled (result : ρ)
deriving Repr

/-- Modelled from the spec: `QueueClient.handleJob` (QueueClient.js is not
under src/; only its caller VerySimpleQueue.handleJob is).  Per §4.4 of the
spec: call fetchAndReserve on the queue; when no job, return an explicit
"nothing to do" result without invoking the handler; when the handler
completes normally, delete the job by uuid and return the handler's result;
when the handler raises, mark the job failed by uuid and re-raise the
original error. -/
def handleJob {σ ε ρ : Type} (d : DriverAPI σ) (handler : String → Except ε ρ)
    (queue : String) (s : σ) : Except ε (HandleOutcome ρ) × σ :=
  match d.fetchAndReserve queue s with
  | (none, s1) => (Except.ok HandleOutcome.nothingToDo, s1)
  | (some job, s1) =>
    match handler job.payload with
    | Except.ok r => (Except.ok (HandleOutcome.handled r), d.deleteJob job.uuid s1)
    | Except.error e => (Except.error e, d.markJobAsFailed job.uuid s1)

/-- A tiny concrete backend used to witness the handleJob contract: the state
counts which driver calls ran. -/
def demoDriver : DriverAPI Int :=
  { fetchAndReserve := fun _ n => (some ⟨"u1", "p1"⟩, n + 1)
    deleteJob := fun _ n => n + 10
    markJobAsFailed := fun _ n => n + 100 }

/-- A handler that succeeds with 42. -/
def demoHandler : String → Except String Nat := fun _ => Except.ok 42

end QueueClient

/-- Fixture: an available job `u1` on queue `q`. -/
def sampleJob : RJob :=
  { uuid := some "u1", queue := some "q", payload := some "p1",
    created_at := some 5, reserved_at := none, failed_at := none }

/-- Fixture: a second job carrying the same uuid and queue as `sampleJob`
but different payload. -/
def sampleJob2 : RJob := { sampleJob with payload := some "p2", created_at := some 6 }

/-- Fixture: a connected redis store holding exactly the available job `u1`. -/
def sampleState : RedisState := ⟨true, [("jobs_available:q/u1", sampleJob)]⟩

/-- Fixture: a sqlite row for job `u1` sitting in the failed pool
(failed_at = 7, reserved_at NULL). -/
def failedRow : SqliteRow :=
  { uuid := "u1", queue := "q", payload := "p1", created_at := 1,
    reserved_at := none, failed_at := some 7 }

/-! ### The JSON encoding used for payloads

`Sqlite3Driver.storeJob` / `RedisDriver.storeJob` serialize the payload with
`JSON.stringify` and `#parseJobResult` deserializes it with `JSON.parse` on
every read.  The value universe is embedded as `Json` (numbers are integers:
the modelled payloads carry no floating point), `stringify` follows
`JSON.stringify` (no whitespace; inside strings the quote and backslash are
escaped, so the embedding is exact for strings free of control characters,
which `wfJson` requires), and `jsonParse` is a recursive-descent `JSON.parse`
for that grammar. -/

/-- A JSON value: null, boolean, integer number, string, array, object
(fields in insertion order, as a JavaScript object preserves it). -/
inductive Json where
  | null : Json
  | bool (b : Bool) : Json
  | num (n : Int) : Json
  | str (s : List Char) : Json
  | arr (items : List Json) : Json
  | obj (fields : List (List Char × Json)) : Json

/-- A string payload is well formed when it holds no control characters
(below 0x20); on those `stringify` agrees exactly with `JSON.stringify`. -/
def wfStr (s : List Char) : Bool := s.all (fun c => 32 ≤ c.toNat)

mutual

/-- Well-formedness of a payload: every string in it is control-free. -/
def wfJson : Json → Bool
  | Json.null => true
  | Json.bool _ => true
  | Json.num _ => true
  | Json.str s => wfStr s
  | Json.arr items => wfItems items
  | Json.obj fields => wfFields fields

/-- Well-formedness of an array's items. -/
def wfItems : List Json → Bool
  | [] => true
  | j :: rest => wfJson j && wfItems rest

/-- Well-formedness of an object's fields. -/
def wfFields : List (List Char × Json) → Bool
  | [] => true
  | (k, v) :: rest => wfStr k && wfJson v && wfFields rest

end

/-- `JSON.stringify` escaping inside a string literal: quote and backslash. -/
def escapeChar (c : Char) : List Char :=
  if c = '"' then [ '\\', '"' ]
  else if c = '\\' then [ '\\', '\\' ]
  else [c]

/-- Escape a whole string body. -/
def escapeList : List Char → List Char
  | [] => []
  | c :: rest => escapeChar c ++ escapeList rest

/-- The decimal digit character for n < 10 (and an arbitrary digit above). -/
def digitChar (n : Nat) : Char :=
  if n = 0 then '0' else if n = 1 then '1' else if n = 2 then '2'
  else if n = 3 then '3' else if n = 4 then '4' else if n = 5 then '5'
  else if n = 6 then '6' else if n = 7 then '7' else if n = 8 then '8' else '9'

/-- Decimal digits of a natural number, most significant first. -/
def natChars (n : Nat) : List Char :=
  if n < 10 then [digitChar n]
  else natChars (n / 10) ++ [digitChar (n % 10)]
termination_by n
decreasing_by exact Nat.div_lt_self (by omega) (by omega)

/-- Decimal rendering of an integer, with a leading minus when negative. -/
def intChars (n : Int) : List Char :=
  if n < 0 then '-' :: natChars n.natAbs else natChars n.toNat

/-- Whether a character is a decimal digit. -/
def isDigitCh (c : Char) : Bool := 48 ≤ c.toNat && c.toNat ≤ 57

/-- Numeric value of a digit character. -/
def digitVal (c : Char) : Nat := c.toNat - 48

/-- The natural number denoted by a digit list, most significant first. -/
def charsToNat (ds : List Char) : Nat :=
  ds.foldl (fun a c => a * 10 + digitVal c) 0

mutual

/-- `JSON.stringify` on the embedded value universe (no whitespace, exactly
as the JavaScript default). -/
def stringify : Json → List Char
  | Json.null => [ 'n', 'u', 'l', 'l' ]
  | Json.bool true => [ 't', 'r', 'u', 'e' ]
  | Json.bool false => [ 'f', 'a', 'l', 's', 'e' ]
  | Json.num n => intChars n
  | Json.str s => '"' :: (escapeList s ++ [ '"' ])
  | Json.arr items => '[' :: (stringifyItems items ++ [ ']' ])
  | Json.obj fields => '{' :: (stringifyFields fields ++ [ '}' ])

/-- Array items joined by commas. -/
def stringifyItems : List Json → List Char
  | [] => []
  | j :: rest => stringify j ++ stringifyRest rest

/-- The tail of an item list: a comma before every further item. -/
def stringifyRest : List Json → List Char
  | [] => []
  | j :: rest => ',' :: (stringify j ++ stringifyRest rest)

/-- Object fields `"key":value` joined by commas. -/
def stringifyFields : List (List Char × Json) → List Char
  | [] => []
  | (k, v) :: rest =>
    ('"' :: (escapeList k ++ ('"' :: ':' :: stringify v))) ++ stringifyFieldsRest rest

/-- The tail of a field list: a comma before every further field. -/
def stringifyFieldsRest : List (List Char × Json) → List Char
  | [] => []
  | (k, v) :: rest =>
    ',' :: (('"' :: (escapeList k ++ ('"' :: ':' :: stringify v))) ++ stringifyFieldsRest rest)

end

mutual

/-- Structural size of a value, used as the parser fuel bound. -/
def jsize : Json → Nat
  | Json.null => 1
  | Json.bool _ => 1
  | Json.num _ => 1
  | Json.str _ => 1
  | Json.arr items => 1 + jsizeItems items
  | Json.obj fields => 1 + jsizeFields fields

/-- Size of an item list. -/
def jsizeItems : List Json → Nat
  | [] => 0
  | j :: rest => 1 + jsize j + jsizeItems rest

/-- Size of a field list. -/
def jsizeFields : List (List Char × Json) → Nat
  | [] => 0
  | (_, v) :: rest => 1 + jsize v + jsizeFields rest

end

/-- Consume an expected literal character sequence. -/
def expectChars : List Char → List Char → Option (List Char)
  | [], rest => some rest
  | _ :: _, [] => none
  | l :: ls, c :: cs => if c = l then expectChars ls cs else none

/-- Parse a string body up to the closing unescaped quote, undoing the
escapes `stringify` emits. -/
def parseStringBody : List Char → Option (List Char × List Char)
  | [] => none
  | c :: cs =>
    if c = '"' then some ([], cs)
    else if c = '\\' then
      match cs with
      | [] => none
      | d :: ds =>
        if d = '"' || d = '\\' then
          match parseStringBody ds with
          | some (s, r) => some (d :: s, r)
          | none => none
        else none
    else
      match parseStringBody cs with
      | some (s, r) => some (c :: s, r)
      | none => none

/-- Parse a maximal nonempty run of decimal digits. -/
def parseNumTail (input : List Char) : Option (Nat × List Char) :=
  let ds := input.takeWhile isDigitCh
  let rest := input.dropWhile isDigitCh
  if ds.isEmpty then none else some (charsToNat ds, rest)

/-- Whether the input does not begin with a digit (so a preceding number
parse cannot run over into it). -/
def noDigitStart : List Char → Bool
  | [] => true
  | c :: _ => !isDigitCh c

mutual

/-- Recursive-descent `JSON.parse` for the grammar `stringify` emits, with a
fuel argument bounding the nesting. -/
def parseValue : Nat → List Char → Option (Json × List Char)
  | 0, _ => none
  | _ + 1, [] => none
  | fuel + 1, c :: cs =>
    if c = 'n' then (expectChars [ 'u', 'l', 'l' ] cs).map (fun r => (Json.null, r))
    else if c = 't' then (expectChars [ 'r', 'u', 'e' ] cs).map (fun r => (Json.bool true, r))
    else if c = 'f' then (expectChars [ 'a', 'l', 's', 'e' ] cs).map (fun r => (Json.bool false, r))
    else if c = '"' then (parseStringBody cs).map (fun p => (Json.str p.fst, p.snd))
    else if c = '[' then
      match cs with
      | [] => none
      | d :: ds =>
        if d = ']' then some (Json.arr [], ds)
        else
          match parseItems fuel (d :: ds) with
          | some (items, rest) => some (Json.arr items, rest)
          | none => none
    else if c = '{' then
      match cs with
      | [] => none
      | d :: ds =>
        if d = '}' then some (Json.obj [], ds)
        else
          match parseFields fuel (d :: ds) with
          | some (fields, rest) => some (Json.obj fields, rest)
          | none => none
    else if c = '-' then
      match parseNumTail cs with
      | some (n, rest) => some (Json.num (-(n : Int)), rest)
      | none => none
    else
      match parseNumTail (c :: cs) with
      | some (n, rest) => some (Json.num ((n : Int)), rest)
      | none => none

/-- Parse one or more comma-separated items up to the closing bracket. -/
def parseItems : Nat → List Char → Option (List Json × List Char)
  | 0, _ => none
  | fuel + 1, input =>
    match parseValue fuel input with
    | none => none
    | some (v, rest) =>
      match rest with
      | [] => none
      | c :: cs =>
        if c = ']' then some ([v], cs)
        else if c = ',' then
          match parseItems fuel cs with
          | some (items, rest2) => some (v :: items, rest2)
          | none => none
        else none

/-- Parse one or more comma-separated `"key":value` fields up to the closing
brace. -/
def parseFields : Nat → List Char → Option (List (List Char × Json) × List Char)
  | 0, _ => none
  | fuel + 1, input =>
    match input with
    | [] => none
    | c :: cs =>
      if c = '"' then
        match parseStringBody cs with
        | none => none
        | some (key, rest) =>
          match rest with
          | [] => none
          | d :: ds =>
            if d = ':' then
              match parseValue fuel ds with
              | none => none
              | some (v, rest2) =>
                match rest2 with
                | [] => none
                | e :: es =>
                  if e = '}' then some ([(key, v)], es)
                  else if e = ',' then
                    match parseFields fuel es with
                    | some (fields, rest3) => some ((key, v) :: fields, rest3)
                    | none => none
                  else none
            else none
      else none

end

/-- `JSON.parse`: parse one value and require the input to be consumed. -/
def jsonParse (input : List Char) : Option Json :=
  match parseValue (input.length + 1) input with
  | some (v, []) => some v
  | _ => none

/-- Fixture: the spec's concrete payload scenario `{ "x": 1 }`. -/
def demoPayload : Json := Json.obj [([ 'x' ], Json.num 1)]

/-! ## Claim theorems -/

/-- C1: the claim that at most one of any number of concurrent
fetch-and-reserve calls returns a given job fails on the redis driver.  In
the interleaving where both callers' pattern reads complete before either
caller's lock-protected `#markJob` (reads run outside the lock), both
`getJob` calls resolve with job `u1`: the second `#markJob` finds no key
under the available prefix, deletes nothing, and still writes the reserved
key, so the job is handed to two callers. -/
theorem redis_getJob_race_duplicate_delivery :
    ∃ a b s2, RedisDriver.getJobRace sampleState "q" 10 11 =
        Except.ok (some a, some b, s2) ∧
      a.uuid = some "u1" ∧ b.uuid = some "u1" :=
  ⟨{ sampleJob with reserved_at := some 10 },
   { sampleJob with reserved_at := some 11 },
   ⟨true, [("jobs_reserved:q/u1", { sampleJob with reserved_at := some 11 })]⟩,
   rfl, rfl, rfl⟩

/-- C2: the claim that `#markJob` re-checks, under the lock, that the key
still exists under the expected current-state prefix and otherwise reports
no job without writing, fails on the code: on a store without any
`jobs_available:*u1` key, `#markJob` succeeds and writes the destination key
`jobs_reserved:q/u1` anyway. -/
theorem redis_markJob_writes_without_existence_recheck :
    RedisDriver.markJob ⟨true, []⟩ { sampleJob with reserved_at := some 10 }
        "reserved" "available" =
      Except.ok ⟨true, [("jobs_reserved:q/u1", { sampleJob with reserved_at := some 10 })]⟩ :=
  rfl

/-- C3 counterexample: reserving from the failed pool does not clear
`failed_at` in the sqlite driver: `getFailedJob` on a table with one failed
row updates only `reserved_at`; the row keeps `failed_at = 7`. -/
theorem sqlite_getFailedJob_keeps_failed_at :
    Sqlite3Driver.getFailedJob "q" 42 [failedRow] =
      Except.ok (some failedRow, [{ failedRow with reserved_at := some 42 }]) ∧
    ({ failedRow with reserved_at := some 42 } : SqliteRow).failed_at = some 7 :=
  ⟨rfl, rfl⟩

/-- C4: the claim that `getJobByUuid` returns null, returns no job object and
writes nothing whenever the uuid is absent or the job is not Available fails
on both drivers.  Sqlite: its WHERE clause checks only `reserved_at IS NULL`,
so a job in the Failed pool is returned and reserved.  Redis: on an absent
uuid the missing null check passes `null` into `#reserveJob`, which returns a
truthy object (not a job, not null) and writes the key
`jobs_reserved:undefined/undefined`. -/
theorem getJobByUuid_returns_non_available :
    Sqlite3Driver.getJobByUuid "u1" 42 [failedRow] =
      Except.ok (some failedRow, [{ failedRow with reserved_at := some 42 }]) ∧
    failedRow.failed_at = some 7 ∧
    RedisDriver.getJobByUuid ⟨true, []⟩ "u1" 10 =
      Except.ok
        (some { emptyRJob with reserved_at := some 10 },
         ⟨true, [("jobs_reserved:undefined/undefined",
                  { emptyRJob with reserved_at := some 10 })]⟩) :=
  ⟨rfl, rfl, rfl⟩

/-- C5 counterexample: storing a job whose uuid (and queue) already exists
does not fail on the redis driver: `SETNX` resolves normally and the call
succeeds, leaving the old value in place — no duplicate-id error is
raised. -/
theorem redis_storeJob_duplicate_no_error :
    RedisDriver.storeJob sampleState sampleJob2 = Except.ok sampleState :=
  rfl

/-- C5 as amended: the sqlite driver rejects a duplicate uuid with a
constraint error (leaving the table unchanged), while the redis driver
silently ignores a store onto an existing key; in both cases the previously
stored job's data is unchanged. -/
theorem storeJob_duplicate_behavior :
    (∀ (table : List SqliteRow) (uuid queue payload : String) (created : Int),
        (∃ r ∈ table, r.uuid = uuid) →
        Sqlite3Driver.storeJob table uuid queue payload created =
          Except.error JsError.constraintViolation) ∧
    (∀ (s : RedisState) (job : RJob), s.connection = true →
        (∃ kv ∈ s.store,
          kv.fst = "jobs_available:" ++ jsStr job.queue ++ "/" ++ jsStr job.uuid) →
        RedisDriver.storeJob s job = Except.ok s) := by
  constructor
  · intro table uuid queue payload created h
    have hany : table.any (fun r => r.uuid = uuid) = true := by
      obtain ⟨r, hr, hu⟩ := h
      exact List.any_eq_true.mpr ⟨r, hr, by simp [hu]⟩
    simp [Sqlite3Driver.storeJob, hany]
  · intro s job hconn h
    obtain ⟨c, st⟩ := s
    simp only at hconn
    subst hconn
    have hany : st.any
        (fun kv => kv.fst = "jobs_available:" ++ jsStr job.queue ++ "/" ++ jsStr job.uuid) = true := by
      obtain ⟨kv, hkv, hk⟩ := h
      exact List.any_eq_true.mpr ⟨kv, hkv, by simp [hk]⟩
    simp [RedisDriver.storeJob, RedisDriver.setConnection, redisSetnx, hany]

/-- C5 witness: the amended behaviors at concrete inputs — a duplicate insert
of uuid u1 into a sqlite table already holding u1, and a redis store onto the
already-present key of `sampleState`. -/
theorem storeJob_duplicate_behavior_witness :
    Sqlite3Driver.storeJob [failedRow] "u1" "q" "p9" 3 =
      Except.error JsError.constraintViolation ∧
    RedisDriver.storeJob sampleState sampleJob = Except.ok sampleState :=
  ⟨storeJob_duplicate_behavior.1 [failedRow] "u1" "q" "p9" 3
      ⟨failedRow, by decide, by decide⟩,
   storeJob_duplicate_behavior.2 sampleState sampleJob rfl
      ⟨("jobs_available:q/u1", sampleJob), by decide, by decide⟩⟩

/-- C6: the queue client's handleJob contract — when fetch-and-reserve finds
no job, an explicit "nothing to do" result is returned and the handler is
never consulted (the result is the same for any two handlers); when the
handler succeeds, the job is deleted by uuid and the handler's result is
returned; when the handler fails, the job is marked failed by uuid and the
original error is re-raised. -/
theorem handleJob_contract :
    ∀ {σ ε ρ : Type} (d : QueueClient.DriverAPI σ)
      (h h2 : String → Except ε ρ) (queue : String) (s s1 : σ)
      (job : QueueClient.CJob) (r : ρ) (e : ε),
      (d.fetchAndReserve queue s = (none, s1) →
        QueueClient.handleJob d h queue s =
          (Except.ok QueueClient.HandleOutcome.nothingToDo, s1) ∧
        QueueClient.handleJob d h queue s = QueueClient.handleJob d h2 queue s) ∧
      (d.fetchAndReserve queue s = (some job, s1) → h job.payload = Except.ok r →
        QueueClient.handleJob d h queue s =
          (Except.ok (QueueClient.HandleOutcome.handled r), d.deleteJob job.uuid s1)) ∧
      (d.fetchAndReserve queue s = (some job, s1) → h job.payload = Except.error e →
        QueueClient.handleJob d h queue s =
          (Except.error e, d.markJobAsFailed job.uuid s1)) := by
  intro σ ε ρ d h h2 queue s s1 job r e
  refine ⟨fun hf => ?_, fun hf hh => ?_, fun hf hh => ?_⟩
  · simp [QueueClient.handleJob, hf]
  · simp [QueueClient.handleJob, hf, hh]
  · simp [QueueClient.handleJob, hf, hh]

/-- C6 witness: the contract applied to the concrete `demoDriver` and the
always-succeeding `demoHandler`: the fetched job `u1` is handled with result
42 and then deleted (state 0 → fetch 1 → delete 11). -/
theorem handleJob_contract_witness :
    QueueClient.handleJob QueueClient.demoDriver QueueClient.demoHandler "q" 0 =
      (Except.ok (QueueClient.HandleOutcome.handled 42), 11) :=
  (handleJob_contract QueueClient.demoDriver QueueClient.demoHandler
      QueueClient.demoHandler "q" 0 1 ⟨"u1", "p1"⟩ 42 "e").2.1 rfl rfl

/-- C7: any injected failure of a statement inside the sqlite reservation
transaction (BEGIN, SELECT, UPDATE or COMMIT) makes `#reserveJob` roll back
and resolve with no job and the table unchanged — no error surfaces to the
caller (the ROLLBACK statement itself succeeding). -/
theorem sqlite_reserveJob_failure_returns_no_job :
    ∀ (f : TxFaults) (pred : SqliteRow → Bool) (ts : Int) (table : List SqliteRow),
      (f.beginFails = true ∨ f.selectFails = true ∨ f.updateFails = true ∨
        f.commitFails = true) →
      f.rollbackFails = false →
      Sqlite3Driver.reserveJob f pred ts table = Except.ok (none, table) := by
  intro f pred ts table hfail hrb
  obtain ⟨b1, b2, b3, b4, b5⟩ := f
  simp only at hfail hrb
  subst hrb
  cases b1 <;> cases b2 <;> cases b3 <;> cases b4 <;>
    simp_all [Sqlite3Driver.reserveJob, Sqlite3Driver.reserveJobTx, txRun,
      Bind.bind, Except.bind] <;>
    cases htable : table.find? pred <;>
    simp [htable, Bind.bind, Except.bind, Pure.pure, Except.pure]

/-- C7 witness: a failing UPDATE on a table holding one available job — the
call resolves with no job and the table intact. -/
theorem sqlite_reserveJob_failure_returns_no_job_witness :
    Sqlite3Driver.reserveJob ⟨false, false, true, false, false⟩
        (Sqlite3Driver.getJobPred "q") 9
        [{ failedRow with failed_at := none }] =
      Except.ok (none, [{ failedRow with failed_at := none }]) :=
  sqlite_reserveJob_failure_returns_no_job ⟨false, false, true, false, false⟩
    (Sqlite3Driver.getJobPred "q") 9 [{ failedRow with failed_at := none }]
    (Or.inr (Or.inr (Or.inl rfl))) rfl

/-- C8 counterexample: the redis driver deletes a job that is not Reserved:
`deleteJob` looks keys up by the pattern `jobs_*<uuid>`, which matches every
state prefix, so an Available job is removed. -/
theorem redis_deleteJob_removes_available_job :
    sampleJob.reserved_at = none ∧
    RedisDriver.deleteJob sampleState "u1" = Except.ok ⟨true, []⟩ :=
  ⟨rfl, rfl⟩

/-- C8 as amended: the reserved-only restriction holds in the sqlite driver —
its DELETE touches nothing when the target row is not reserved, and rows with
another uuid always survive; the redis driver instead deletes the first key
matching the uuid regardless of its state prefix, and every other key
survives. -/
theorem deleteJob_scope :
    (∀ (table : List SqliteRow) (u : String),
        (∀ r ∈ table, r.uuid = u → r.reserved_at = none) →
        Sqlite3Driver.deleteJob u table = table) ∧
    (∀ (table : List SqliteRow) (u : String) (r : SqliteRow),
        r ∈ table → r.uuid ≠ u → r ∈ Sqlite3Driver.deleteJob u table) ∧
    (∀ (s : RedisState) (u : String) (s2 : RedisState),
        RedisDriver.deleteJob s u = Except.ok s2 →
        ∃ okey, RedisDriver.getJobKeyByPattern s "jobs_" u = Except.ok okey ∧
          s2.store = redisDel s.store okey ∧
          ∀ kv ∈ s.store, some kv.fst ≠ okey → kv ∈ s2.store) := by
  refine ⟨?_, ?_, ?_⟩
  · intro table u h
    apply List.filter_eq_self.mpr
    intro r hr
    by_cases hu : r.uuid = u
    · have hres := h r hr hu
      simp [hres, hu]
    · simp [hu]
  · intro table u r hr hu
    exact List.mem_filter.mpr ⟨hr, by simp [hu]⟩
  · intro s u s2 hdel
    obtain ⟨c, st⟩ := s
    cases c
    · simp [RedisDriver.deleteJob, RedisDriver.getJobKeyByPattern,
        Bind.bind, Except.bind] at hdel
    · have hdel2 : Except.ok (RedisState.mk true (redisDel st
          ((st.find? (fun kv => globMatch1 "jobs_" u kv.fst)).map (fun kv => kv.fst)))) =
          Except.ok s2 := hdel
      have hs2 : s2 = RedisState.mk true (redisDel st
          ((st.find? (fun kv => globMatch1 "jobs_" u kv.fst)).map (fun kv => kv.fst))) :=
        (Except.ok.inj hdel2).symm
      subst hs2
      refine ⟨(st.find? (fun kv : String × RJob => globMatch1 "jobs_" u kv.fst)).map
        (fun kv : String × RJob => kv.fst), rfl, rfl, ?_⟩
      intro kv hkv hne
      cases hfind : (st.find? (fun kv : String × RJob => globMatch1 "jobs_" u kv.fst)).map
          (fun kv : String × RJob => kv.fst) with
      | none => simpa [redisDel, hfind] using hkv
      | some k =>
        rw [hfind] at hne
        simp only [redisDel, hfind]
        refine List.mem_filter.mpr ⟨hkv, ?_⟩
        simpa using fun hk => hne (congrArg some hk)

/-- C8 witness: the amended statement at concrete inputs — deleting `u1` in a
sqlite table where `u1` is not reserved leaves the table unchanged, and the
redis delete of `u1` removes exactly the key found by the `jobs_*u1`
lookup. -/
theorem deleteJob_scope_witness :
    Sqlite3Driver.deleteJob "u1" [failedRow] = [failedRow] ∧
    ∃ okey, RedisDriver.getJobKeyByPattern sampleState "jobs_" "u1" = Except.ok okey ∧
      (⟨true, []⟩ : RedisState).store = redisDel sampleState.store okey ∧
      ∀ kv ∈ sampleState.store, some kv.fst ≠ okey → kv ∈ (⟨true, []⟩ : RedisState).store :=
  ⟨deleteJob_scope.1 [failedRow] "u1" (by decide),
   deleteJob_scope.2.2 sampleState "u1" ⟨true, []⟩ rfl⟩

/-- C3 as amended: the three states partition every row (with `Reserved`
taking precedence when both timestamps are set); a redis reservation stamps
`reserved_at` and clears `failed_at` in its one lock-protected move; the
sqlite `getFailedJob` reservation stamps `reserved_at` via `updateReserved`,
which leaves the `failed_at` column of every row unchanged (it does not
clear it). -/
theorem job_states_partition_and_failed_pool_reservation :
    (∀ r : SqliteRow,
        (rowAvailable r ∧ ¬ rowReserved r ∧ ¬ rowFailed r) ∨
        (rowReserved r ∧ ¬ rowAvailable r ∧ ¬ rowFailed r) ∨
        (rowFailed r ∧ ¬ rowAvailable r ∧ ¬ rowReserved r)) ∧
    (∀ (s : RedisState) (ts : Int) (j r : RJob) (s2 : RedisState),
        RedisDriver.reserveJob s ts (some j) = Except.ok (some r, s2) →
        r.reserved_at = some ts ∧ r.failed_at = none) ∧
    (∀ (q : String) (ts : Int) (table tbl2 : List SqliteRow) (row : SqliteRow),
        Sqlite3Driver.getFailedJob q ts table = Except.ok (some row, tbl2) →
        tbl2 = Sqlite3Driver.updateReserved table row.uuid ts) ∧
    (∀ (table : List SqliteRow) (u : String) (ts : Int),
        (Sqlite3Driver.updateReserved table u ts).map SqliteRow.failed_at =
          table.map SqliteRow.failed_at) := by
  refine ⟨?_, ?_, ?_, ?_⟩
  · intro r
    simp only [rowAvailable, rowReserved, rowFailed]
    cases hr : r.reserved_at <;> cases hf : r.failed_at <;> simp
  · intro s ts j r s2 hres
    simp only [RedisDriver.reserveJob, Option.getD_some] at hres
    cases hmk : RedisDriver.markJob s { j with reserved_at := some ts, failed_at := none }
        "reserved" (if jsTruthy j.failed_at then "failed" else "available") with
    | ok s3 =>
      rw [hmk] at hres
      have := Except.ok.inj hres
      have hr : r = { j with reserved_at := some ts, failed_at := none } :=
        ((Option.some.inj (congrArg Prod.fst this))).symm
      rw [hr]
      exact ⟨rfl, rfl⟩
    | error e =>
      rw [hmk] at hres
      simp at hres
  · intro q ts table tbl2 row hres
    simp only [Sqlite3Driver.getFailedJob, Sqlite3Driver.reserveJob,
      Sqlite3Driver.reserveJobTx, noFaults, txRun, if_neg, Bind.bind, Except.bind,
      Pure.pure, Except.pure] at hres
    cases hfind : table.find? (Sqlite3Driver.getFailedJobPred q) with
    | none => rw [hfind] at hres; simp at hres
    | some row2 =>
      rw [hfind] at hres
      simp only [Except.ok.injEq, Prod.mk.injEq] at hres
      obtain ⟨hrow, htbl⟩ := hres
      simp_all
  · intro table u ts
    simp only [Sqlite3Driver.updateReserved, List.map_map]
    congr 1
    funext r
    by_cases h : r.uuid = u <;> simp [h]

/-- C3 witness: the amended statement at concrete inputs — the redis
reservation of `sampleJob` yields `reserved_at = 10`, `failed_at` cleared,
and the sqlite `getFailedJob` on the failed row `u1` produces exactly
`updateReserved` of the table (which keeps `failed_at`). -/
theorem job_states_partition_witness :
    (({ sampleJob with reserved_at := some 10 } : RJob).reserved_at = some 10 ∧
      ({ sampleJob with reserved_at := some 10 } : RJob).failed_at = none) ∧
    [{ failedRow with reserved_at := some 42 }] =
      Sqlite3Driver.updateReserved [failedRow] failedRow.uuid 42 :=
  ⟨job_states_partition_and_failed_pool_reservation.2.1 sampleState 10 sampleJob
      { sampleJob with reserved_at := some 10 }
      ⟨true, [("jobs_reserved:q/u1", { sampleJob with reserved_at := some 10 })]⟩ rfl,
   job_states_partition_and_failed_pool_reservation.2.2.1 "q" 42 [failedRow]
      [{ failedRow with reserved_at := some 42 }] failedRow rfl⟩

/-- C10: on a freshly constructed redis driver (connection not yet
established) and any pre-existing key space, `getFailedJob`, `deleteJob` and
`markJobAsFailed` do not ensure a connection and reject with a TypeError from
dereferencing the unset connection, while (for contrast) `storeJob` first
runs `#setConnection` and succeeds. -/
theorem redis_fresh_connection_errors :
    ∀ (store : List (String × RJob)) (queue uuid : String) (ts : Int) (job : RJob),
      RedisDriver.getFailedJob ⟨false, store⟩ queue ts = Except.error JsError.typeError ∧
      RedisDriver.deleteJob ⟨false, store⟩ uuid = Except.error JsError.typeError ∧
      RedisDriver.markJobAsFailed ⟨false, store⟩ uuid ts = Except.error JsError.typeError ∧
      RedisDriver.storeJob ⟨false, store⟩ job =
        Except.ok ⟨true, redisSetnx store
          ("jobs_available:" ++ jsStr job.queue ++ "/" ++ jsStr job.uuid) job⟩ :=
  fun _ _ _ _ _ => ⟨rfl, rfl, rfl, rfl⟩

/-! ### Round-trip lemmas for the JSON encoding -/

theorem digitVal_digitChar {n : Nat} (h : n < 10) :
    digitVal (digitChar n) = n := by
  interval_cases n <;> decide

theorem isDigitCh_digitChar {n : Nat} (h : n < 10) :
    isDigitCh (digitChar n) = true := by
  interval_cases n <;> decide

theorem natChars_ne_nil (n : Nat) : natChars n ≠ [] := by
  rw [natChars]
  split <;> simp

theorem natChars_all_digits (n : Nat) :
    ∀ c ∈ natChars n, isDigitCh c = true := by
  induction n using Nat.strong_induction_on with
  | _ n ih =>
    rw [natChars]
    split
    · next h =>
      intro c hc
      simp only [List.mem_singleton] at hc
      subst hc
      exact isDigitCh_digitChar h
    · next h =>
      intro c hc
      rw [List.mem_append] at hc
      rcases hc with hc | hc
      · exact ih (n / 10) (Nat.div_lt_self (by omega) (by omega)) c hc
      · simp only [List.mem_singleton] at hc
        subst hc
        exact isDigitCh_digitChar (Nat.mod_lt _ (by omega))

theorem charsToNat_append_digit (ds : List Char) (d : Char) :
    charsToNat (ds ++ [d]) = charsToNat ds * 10 + digitVal d := by
  simp [charsToNat, List.foldl_append]

theorem charsToNat_natChars (n : Nat) : charsToNat (natChars n) = n := by
  induction n using Nat.strong_induction_on with
  | _ n ih =>
    rw [natChars]
    split
    · next h => simp [charsToNat, digitVal_digitChar h]
    · next h =>
      rw [charsToNat_append_digit, ih (n / 10) (Nat.div_lt_self (by omega) (by omega)),
        digitVal_digitChar (Nat.mod_lt _ (by omega))]
      omega

theorem takeWhile_dropWhile_append (p : Char → Bool) (xs ys : List Char)
    (hall : ∀ c ∈ xs, p c = true)
    (hhead : ∀ c, ys.head? = some c → p c = false) :
    (xs ++ ys).takeWhile p = xs ∧ (xs ++ ys).dropWhile p = ys := by
  induction xs with
  | nil =>
    simp only [List.nil_append]
    cases ys with
    | nil => simp
    | cons y ys' =>
      have hy := hhead y rfl
      simp [List.takeWhile_cons, List.dropWhile_cons, hy]
  | cons x xs' ih =>
    have hx := hall x (by simp)
    have hrest : ∀ c ∈ xs', p c = true := fun c hc => hall c (by simp [hc])
    obtain ⟨h1, h2⟩ := ih hrest
    simp [List.takeWhile_cons, List.dropWhile_cons, hx, h1, h2]

theorem parseNumTail_natChars (n : Nat) (rest : List Char)
    (hrest : noDigitStart rest = true) :
    parseNumTail (natChars n ++ rest) = some (n, rest) := by
  have hall := natChars_all_digits n
  have hhead : ∀ c, rest.head? = some c → isDigitCh c = false := by
    intro c hc
    cases rest with
    | nil => simp at hc
    | cons r rs =>
      simp only [List.head?_cons, Option.some.injEq] at hc
      subst hc
      simpa [noDigitStart] using hrest
  obtain ⟨h1, h2⟩ := takeWhile_dropWhile_append isDigitCh (natChars n) rest hall hhead
  have hne : (natChars n).isEmpty = false := by
    cases hx : natChars n with
    | nil => exact absurd hx (natChars_ne_nil n)
    | cons a l => rfl
  simp [parseNumTail, h1, h2, hne, charsToNat_natChars]

theorem expectChars_append (lits rest : List Char) :
    expectChars lits (lits ++ rest) = some rest := by
  induction lits with
  | nil => simp [expectChars]
  | cons l ls ih => simp [expectChars, ih]

theorem parseStringBody_escapeList (s rest : List Char) :
    parseStringBody (escapeList s ++ '"' :: rest) = some (s, rest) := by
  induction s with
  | nil =>
    show parseStringBody ('"' :: rest) = some ([], rest)
    rw [parseStringBody.eq_def]
    simp
  | cons c cs ih =>
    by_cases h1 : c = '"'
    · subst h1
      show parseStringBody ('\\' :: '"' :: (escapeList cs ++ '"' :: rest)) =
        some ('"' :: cs, rest)
      rw [parseStringBody.eq_def]
      simp [ih]
    · by_cases h2 : c = '\\'
      · subst h2
        show parseStringBody ('\\' :: '\\' :: (escapeList cs ++ '"' :: rest)) =
          some ('\\' :: cs, rest)
        rw [parseStringBody.eq_def]
        simp [ih]
      · have hc : escapeChar c = [c] := by simp [escapeChar, h1, h2]
        have he : escapeList (c :: cs) = escapeChar c ++ escapeList cs := by
          simp [escapeList]
        rw [he, hc]
        show parseStringBody (c :: (escapeList cs ++ '"' :: rest)) = some (c :: cs, rest)
        rw [parseStringBody.eq_def]
        simp [h1, h2, ih]

theorem jsize_pos (v : Json) : 1 ≤ jsize v := by
  cases v <;> simp [jsize]

theorem natChars_head (m : Nat) :
    ∃ c cs, natChars m = c :: cs ∧ isDigitCh c = true := by
  cases hx : natChars m with
  | nil => exact absurd hx (natChars_ne_nil m)
  | cons c cs =>
    exact ⟨c, cs, rfl, natChars_all_digits m c (by rw [hx]; simp)⟩

theorem digit_not_special {c : Char} (h : isDigitCh c = true) :
    c ≠ 'n' ∧ c ≠ 't' ∧ c ≠ 'f' ∧ c ≠ '"' ∧ c ≠ '[' ∧ c ≠ '{' ∧ c ≠ '-' := by
  refine ⟨?_, ?_, ?_, ?_, ?_, ?_, ?_⟩ <;> rintro rfl <;> exact absurd h (by decide)

theorem stringify_head (v : Json) :
    ∃ c cs, stringify v = c :: cs ∧
      (c = 'n' ∨ c = 't' ∨ c = 'f' ∨ c = '"' ∨ c = '[' ∨ c = '{' ∨ c = '-' ∨
        isDigitCh c = true) := by
  cases v with
  | null => exact ⟨ 'n', [ 'u', 'l', 'l' ], by simp [stringify], by simp⟩
  | bool b =>
    cases b
    · exact ⟨ 'f', [ 'a', 'l', 's', 'e' ], by simp [stringify], by simp⟩
    · exact ⟨ 't', [ 'r', 'u', 'e' ], by simp [stringify], by simp⟩
  | num n =>
    by_cases hn : n < 0
    · exact ⟨ '-', natChars n.natAbs, by simp [stringify, intChars, hn], by simp⟩
    · obtain ⟨c, cs, hx, hd⟩ := natChars_head n.toNat
      exact ⟨c, cs, by simp [stringify, intChars, hn, hx],
        Or.inr (Or.inr (Or.inr (Or.inr (Or.inr (Or.inr (Or.inr hd))))))⟩
  | str s => exact ⟨ '"', escapeList s ++ [ '"' ], by simp [stringify], by simp⟩
  | arr items => exact ⟨ '[', stringifyItems items ++ [ ']' ], by simp [stringify], by simp⟩
  | obj fields => exact ⟨ '{', stringifyFields fields ++ [ '}' ], by simp [stringify], by simp⟩

theorem start_ne_delims {c : Char}
    (h : c = 'n' ∨ c = 't' ∨ c = 'f' ∨ c = '"' ∨ c = '[' ∨ c = '{' ∨ c = '-' ∨
      isDigitCh c = true) :
    c ≠ ']' ∧ c ≠ '}' := by
  rcases h with rfl | rfl | rfl | rfl | rfl | rfl | rfl | h
  all_goals try exact ⟨by decide, by decide⟩
  constructor <;> rintro rfl <;> exact absurd h (by decide)

/-- The parser inverts the printer, by strong induction on the fuel: one
statement per mutual parser, with the item/field statements for nonempty
lists (the empty array and object are consumed directly by `parseValue`). -/
theorem parse_stringify_all (fuel : Nat) :
    (∀ (v : Json) (rest : List Char), jsize v ≤ fuel → noDigitStart rest = true →
        parseValue fuel (stringify v ++ rest) = some (v, rest)) ∧
    (∀ (j : Json) (items : List Json) (rest : List Char),
        jsizeItems (j :: items) ≤ fuel →
        parseItems fuel (stringifyItems (j :: items) ++ ']' :: rest) =
          some (j :: items, rest)) ∧
    (∀ (k : List Char) (v : Json) (fields : List (List Char × Json)) (rest : List Char),
        jsizeFields ((k, v) :: fields) ≤ fuel →
        parseFields fuel (stringifyFields ((k, v) :: fields) ++ '}' :: rest) =
          some ((k, v) :: fields, rest)) := by
  induction fuel using Nat.strong_induction_on with
  | _ fuel ih =>
  cases fuel with
  | zero =>
    refine ⟨?_, ?_, ?_⟩
    · intro v rest hsz _
      have := jsize_pos v
      omega
    · intro j items rest hsz
      simp [jsizeItems] at hsz
    · intro k v fields rest hsz
      simp [jsizeFields] at hsz
  | succ m =>
  obtain ⟨ihV, ihI, ihF⟩ := ih m (Nat.lt_succ_self m)
  refine ⟨?_, ?_, ?_⟩
  · intro v rest hsz hrest
    cases v with
    | null =>
      show parseValue (m + 1) ('n' :: ('u' :: 'l' :: 'l' :: rest)) = some (Json.null, rest)
      rw [parseValue.eq_def]
      simp [expectChars]
    | bool b =>
      cases b
      · show parseValue (m + 1) ('f' :: ('a' :: 'l' :: 's' :: 'e' :: rest)) =
          some (Json.bool false, rest)
        rw [parseValue.eq_def]
        simp [expectChars]
      · show parseValue (m + 1) ('t' :: ('r' :: 'u' :: 'e' :: rest)) =
          some (Json.bool true, rest)
        rw [parseValue.eq_def]
        simp [expectChars]
    | num n =>
      by_cases hn : n < 0
      · have hs : stringify (Json.num n) ++ rest = '-' :: (natChars n.natAbs ++ rest) := by
          simp [stringify, intChars, hn]
        rw [hs, parseValue.eq_def]
        simp [parseNumTail_natChars n.natAbs rest hrest]
        simp [abs_of_nonpos (le_of_lt hn)]
      · obtain ⟨c, cs, hx, hd⟩ := natChars_head n.toNat
        have hs : stringify (Json.num n) ++ rest = c :: (cs ++ rest) := by
          simp [stringify, intChars, hn, hx]
        obtain ⟨d1, d2, d3, d4, d5, d6, d7⟩ := digit_not_special hd
        have harg : parseNumTail (c :: (cs ++ rest)) = some (n.toNat, rest) := by
          have : c :: (cs ++ rest) = natChars n.toNat ++ rest := by
            rw [hx]
            rfl
          rw [this]
          exact parseNumTail_natChars n.toNat rest hrest
        rw [hs, parseValue.eq_def]
        simp [d1, d2, d3, d4, d5, d6, d7, harg]
        omega
    | str s =>
      have hs : stringify (Json.str s) ++ rest = '"' :: (escapeList s ++ '"' :: rest) := by
        simp [stringify]
      rw [hs, parseValue.eq_def]
      simp [parseStringBody_escapeList]
    | arr items =>
      cases items with
      | nil =>
        show parseValue (m + 1) ('[' :: (']' :: rest)) = some (Json.arr [], rest)
        rw [parseValue.eq_def]
        simp
      | cons j its =>
        obtain ⟨c, cs, hj, hstart⟩ := stringify_head j
        have hne := (start_ne_delims hstart).1
        have hitems : stringify (Json.arr (j :: its)) ++ rest =
            '[' :: (c :: (cs ++ (stringifyRest its ++ ']' :: rest))) := by
          simp [stringify, stringifyItems, hj]
        have hback : c :: (cs ++ (stringifyRest its ++ ']' :: rest)) =
            stringifyItems (j :: its) ++ ']' :: rest := by
          simp [stringifyItems, hj]
        have hsz2 : jsizeItems (j :: its) ≤ m := by
          simp [jsize, jsizeItems] at hsz ⊢
          omega
        rw [hitems, parseValue.eq_def]
        simp [hne, hback, ihI j its rest hsz2]
    | obj fields =>
      cases fields with
      | nil =>
        show parseValue (m + 1) ('{' :: ('}' :: rest)) = some (Json.obj [], rest)
        rw [parseValue.eq_def]
        simp
      | cons kv flds =>
        obtain ⟨k, v⟩ := kv
        have hfields : stringify (Json.obj ((k, v) :: flds)) ++ rest =
            '{' :: ('"' :: ((escapeList k ++ ('"' :: ':' :: stringify v)) ++
              (stringifyFieldsRest flds ++ '}' :: rest))) := by
          simp [stringify, stringifyFields]
        have hsz2 : jsizeFields ((k, v) :: flds) ≤ m := by
          simp [jsize, jsizeFields] at hsz ⊢
          omega
        have happ := ihF k v flds rest hsz2
        simp only [stringifyFields, List.append_assoc, List.cons_append] at happ
        rw [hfields, parseValue.eq_def]
        simp [happ]
  · intro j items rest hsz
    have hinput : stringifyItems (j :: items) ++ ']' :: rest =
        stringify j ++ (stringifyRest items ++ ']' :: rest) := by
      simp [stringifyItems]
    have hjm : jsize j ≤ m := by
      simp [jsizeItems] at hsz
      omega
    have hnd : noDigitStart (stringifyRest items ++ ']' :: rest) = true := by
      cases items with
      | nil => simp [stringifyRest, noDigitStart]; decide
      | cons j2 r => simp [stringifyRest, noDigitStart]; decide
    rw [hinput, parseItems.eq_def]
    simp only [ihV j (stringifyRest items ++ ']' :: rest) hjm hnd]
    cases items with
    | nil => simp [stringifyRest]
    | cons j2 r =>
      have hsz2 : jsizeItems (j2 :: r) ≤ m := by
        have := jsize_pos j
        simp [jsizeItems] at hsz ⊢
        omega
      have happ := ihI j2 r rest hsz2
      simp only [stringifyItems, List.append_assoc, List.cons_append] at happ
      simp [stringifyRest, happ]
  · intro k v fields rest hsz
    have hinput : stringifyFields ((k, v) :: fields) ++ '}' :: rest =
        '"' :: (escapeList k ++ ('"' ::
          (':' :: (stringify v ++ (stringifyFieldsRest fields ++ '}' :: rest))))) := by
      simp [stringifyFields]
    have hvm : jsize v ≤ m := by
      simp [jsizeFields] at hsz
      omega
    have hnd : noDigitStart (stringifyFieldsRest fields ++ '}' :: rest) = true := by
      cases fields with
      | nil => simp [stringifyFieldsRest, noDigitStart]; decide
      | cons kv2 r =>
        obtain ⟨k2, v2⟩ := kv2
        simp [stringifyFieldsRest, noDigitStart]; decide
    have hstr := parseStringBody_escapeList k
      (':' :: (stringify v ++ (stringifyFieldsRest fields ++ '}' :: rest)))
    have happV := ihV v (stringifyFieldsRest fields ++ '}' :: rest) hvm hnd
    rw [hinput, parseFields.eq_def]
    simp only [List.append_assoc, List.cons_append] at hstr
    simp [hstr, happV]
    cases fields with
    | nil => simp [stringifyFieldsRest]
    | cons kv2 r =>
      obtain ⟨k2, v2⟩ := kv2
      have hsz2 : jsizeFields ((k2, v2) :: r) ≤ m := by
        have := jsize_pos v
        simp [jsizeFields] at hsz ⊢
        omega
      have happ := ihF k2 v2 r rest hsz2
      simp only [stringifyFields, List.append_assoc, List.cons_append] at happ
      simp [stringifyFieldsRest, happ]

/-- The printed form is at least as long as the structural size, so
`input.length + 1` is enough parser fuel. -/
theorem jsize_le_stringify_length (N : Nat) :
    (∀ v : Json, jsize v ≤ N → jsize v ≤ (stringify v).length) ∧
    (∀ items : List Json, jsizeItems items ≤ N →
      jsizeItems items ≤ (stringifyItems items).length + 1) ∧
    (∀ items : List Json, jsizeItems items ≤ N →
      jsizeItems items ≤ (stringifyRest items).length) ∧
    (∀ fields : List (List Char × Json), jsizeFields fields ≤ N →
      jsizeFields fields ≤ (stringifyFields fields).length + 1) ∧
    (∀ fields : List (List Char × Json), jsizeFields fields ≤ N →
      jsizeFields fields ≤ (stringifyFieldsRest fields).length) := by
  induction N using Nat.strong_induction_on with
  | _ N ih =>
  cases N with
  | zero =>
    refine ⟨?_, ?_, ?_, ?_, ?_⟩
    · intro v hsz
      have := jsize_pos v
      omega
    · intro items hsz
      cases items with
      | nil => simp [jsizeItems]
      | cons j r => simp [jsizeItems] at hsz
    · intro items hsz
      cases items with
      | nil => simp [jsizeItems, stringifyRest]
      | cons j r => simp [jsizeItems] at hsz
    · intro fields hsz
      cases fields with
      | nil => simp [jsizeFields]
      | cons kv r =>
        obtain ⟨k, v⟩ := kv
        simp [jsizeFields] at hsz
    · intro fields hsz
      cases fields with
      | nil => simp [jsizeFields, stringifyFieldsRest]
      | cons kv r =>
        obtain ⟨k, v⟩ := kv
        simp [jsizeFields] at hsz
  | succ M =>
  obtain ⟨ihV, ihI, ihR, ihF, ihFR⟩ := ih M (Nat.lt_succ_self M)
  refine ⟨?_, ?_, ?_, ?_, ?_⟩
  · intro v hsz
    cases v with
    | null => simp [jsize, stringify]
    | bool b => cases b <;> simp [jsize, stringify]
    | num n =>
      have : stringify (Json.num n) ≠ [] := by
        simp only [stringify, intChars]
        split
        · simp
        · exact natChars_ne_nil _
      have hlen := List.length_pos.mpr this
      simp [jsize]
      omega
    | str s => simp [jsize, stringify]
    | arr items =>
      have hi : jsizeItems items ≤ M := by
        simp [jsize] at hsz
        omega
      have := ihI items hi
      simp [jsize, stringify]
      omega
    | obj fields =>
      have hf : jsizeFields fields ≤ M := by
        simp [jsize] at hsz
        omega
      have := ihF fields hf
      simp [jsize, stringify]
      omega
  · intro items hsz
    cases items with
    | nil => simp [jsizeItems]
    | cons j r =>
      have hj : jsize j ≤ M := by
        have := jsize_pos j
        simp [jsizeItems] at hsz
        omega
      have hr : jsizeItems r ≤ M := by
        have := jsize_pos j
        simp [jsizeItems] at hsz
        omega
      have h1 := ihV j hj
      have h2 := ihR r hr
      simp [jsizeItems, stringifyItems]
      omega
  · intro items hsz
    cases items with
    | nil => simp [jsizeItems, stringifyRest]
    | cons j r =>
      have hj : jsize j ≤ M := by
        have := jsize_pos j
        simp [jsizeItems] at hsz
        omega
      have hr : jsizeItems r ≤ M := by
        have := jsize_pos j
        simp [jsizeItems] at hsz
        omega
      have h1 := ihV j hj
      have h2 := ihR r hr
      simp [jsizeItems, stringifyRest]
      omega
  · intro fields hsz
    cases fields with
    | nil => simp [jsizeFields]
    | cons kv r =>
      obtain ⟨k, v⟩ := kv
      have hv : jsize v ≤ M := by
        have := jsize_pos v
        simp [jsizeFields] at hsz
        omega
      have hr : jsizeFields r ≤ M := by
        have := jsize_pos v
        simp [jsizeFields] at hsz
        omega
      have h1 := ihV v hv
      have h2 := ihFR r hr
      simp [jsizeFields, stringifyFields]
      omega
  · intro fields hsz
    cases fields with
    | nil => simp [jsizeFields, stringifyFieldsRest]
    | cons kv r =>
      obtain ⟨k, v⟩ := kv
      have hv : jsize v ≤ M := by
        have := jsize_pos v
        simp [jsizeFields] at hsz
        omega
      have hr : jsizeFields r ≤ M := by
        have := jsize_pos v
        simp [jsizeFields] at hsz
        omega
      have h1 := ihV v hv
      have h2 := ihFR r hr
      simp [jsizeFields, stringifyFieldsRest]
      omega

/-- `JSON.parse` inverts `JSON.stringify` on the whole input. -/
theorem jsonParse_stringify (v : Json) : jsonParse (stringify v) = some v := by
  have hsz : jsize v ≤ (stringify v).length + 1 := by
    have := (jsize_le_stringify_length (jsize v)).1 v le_rfl
    omega
  have hmain := (parse_stringify_all ((stringify v).length + 1)).1 v [] hsz (by rfl)
  rw [List.append_nil] at hmain
  simp [jsonParse, hmain]

/-- C9: a payload serializable by the JSON encoding (any `Json` value whose
strings are control-free, so that `stringify` coincides with
`JSON.stringify`) that is stored — the driver writes `JSON.stringify(payload)`
— and then returned by a fetch-and-reserve variant parses back, via the
`JSON.parse` of `#parseJobResult`, to a value deep-equal to the original:
parse composed with stringify is the identity. -/
theorem payload_roundtrip :
    ∀ (p : Json) (uuid queue : String) (created ts : Int), wfJson p = true →
      ∃ table, Sqlite3Driver.storeJob [] uuid queue (String.mk (stringify p)) created =
          Except.ok table ∧
        ∃ row tbl2, Sqlite3Driver.getJob queue ts table = Except.ok (some row, tbl2) ∧
          jsonParse row.payload.data = some p := by
  intro p uuid queue created ts _
  refine ⟨[⟨uuid, queue, String.mk (stringify p), created, none, none⟩], ?_,
    ⟨uuid, queue, String.mk (stringify p), created, none, none⟩,
    [⟨uuid, queue, String.mk (stringify p), created, some ts, none⟩], ?_, ?_⟩
  · simp [Sqlite3Driver.storeJob]
  · simp [Sqlite3Driver.getJob, Sqlite3Driver.reserveJob, Sqlite3Driver.reserveJobTx,
      noFaults, txRun, Sqlite3Driver.getJobPred, Sqlite3Driver.updateReserved,
      Bind.bind, Except.bind, Pure.pure, Except.pure, List.find?]
  · show jsonParse (String.mk (stringify p)).data = some p
    exact jsonParse_stringify p

/-- C9 witness: the spec's concrete payload `{ "x": 1 }` stored as job `u1`
on queue `q` and fetched back parses to itself. -/
theorem payload_roundtrip_witness :
    ∃ table, Sqlite3Driver.storeJob [] "u1" "q" (String.mk (stringify demoPayload)) 5 =
        Except.ok table ∧
      ∃ row tbl2, Sqlite3Driver.getJob "q" 9 table = Except.ok (some row, tbl2) ∧
        jsonParse row.payload.data = some demoPayload :=
  payload_roundtrip demoPayload "u1" "q" 5 9 (by decide)
